import Mathlib

/-
Shallow embedding of src/autoscaler/notification.py (kops-ec2-autoscaler).

The module implements a deduplicated Slack notifier: four event entry points
(notify_scale, notify_failed_to_scale, notify_invalid_pod_capacity,
notify_drained_node) that emit a structured log record per pod, post a
broadcast message to a Slack hook, and (for the first three) send
fingerprint-deduplicated direct messages to pod owners via
`message_owner`, which is wrapped by `cachetools.cachedmethod` over a
`TTLCache(maxsize=128, ttl=60*30)` keyed by `_cache_key`.

External effects (logging calls and `requests.post` transport calls) are
embedded as an explicit output trace; the outcome of each transport call is
an input parameter (the network is the environment).  The TTL cache is
embedded as an association list from key to expiry time with an explicit
clock, following cachetools semantics: an entry inserted at time `t` with
ttl `T` is live at lookup time `now` iff `now < t + T`, and
`cachedmethod` without a `lock` argument performs lookup, method body, and
store as three separate (non-atomic) steps.
-/

namespace Autoscaler

/-- A Kubernetes pod as consumed by notification.py: `uid`, `namespace`,
`name`, optional `owner`, and (for notify_invalid_pod_capacity) the JSON
rendering of `pod.selectors` as produced by `json.dumps`.  `nspace` stands
for the Python attribute `namespace` (a Lean keyword). -/
structure Pod where
  uid : String
  nspace : String
  name : String
  owner : Option String
  selectorsJson : String
deriving DecidableEq, Repr

/-- An EC2 autoscaling group as consumed by notify_scale: `name`, `region`,
`desired_capacity`, plus `strRepr`, the result of Python `str(asg)` (the
ASG class itself is outside this module). -/
structure Asg where
  name : String
  region : String
  desired_capacity : Nat
  strRepr : String
deriving DecidableEq, Repr

/-- MD5 hex digest, modelled as an injective digest: we identify a digest
with the byte stream fed to it.  The source feeds `md5.update` a fixed
concatenation of owner, message and sorted uids, so real-MD5 key equality
follows from equality of this stream; key inequality additionally assumes
MD5 collision-freedom on the stated inputs (the spec accepts any
collision-resistant hash here). -/
def md5_hexdigest (s : String) : String := s

/-- Code-point lexicographic comparison of character sequences: the order
Python uses on the uid strings in `sorted(pods, key=lambda p: p.uid)`,
stated executably so that concrete keys evaluate. -/
def lexLe : List Char → List Char → Bool
  | [], _ => true
  | _ :: _, [] => false
  | a :: as, b :: bs =>
    if a.toNat < b.toNat then true
    else if b.toNat < a.toNat then false
    else lexLe as bs

/-- Code-point lexicographic order on strings. -/
def strLe (a b : String) : Prop := lexLe a.data b.data = true

instance : DecidableRel strLe := fun a b =>
  inferInstanceAs (Decidable (lexLe a.data b.data = true))

/-- The comparison Python's `sorted(pods, key=lambda p: p.uid)` sorts by. -/
def podLe (p q : Pod) : Prop := strLe p.uid q.uid

instance : DecidableRel podLe := fun p q =>
  inferInstanceAs (Decidable (strLe p.uid q.uid))

/-- Python `sorted(pods, key=lambda p: p.uid)`: stable sort by the
code-point order on uids. -/
def sortByUid (pods : List Pod) : List Pod :=
  List.insertionSort podLe pods

/-- notification.py `_cache_key` (lines 21-30): md5 over owner bytes,
message bytes, then each pod uid in uid-sorted order; the hex digest is
prefixed with `v0.md5.`.  The `notifier` argument of the source is unused
there and omitted. -/
def _cache_key (owner message : String) (pods : List Pod) : String :=
  "v0.md5." ++ md5_hexdigest
    (owner ++ message ++ String.join ((sortByUid pods).map Pod.uid))

/-- notification.py `_generate_pod_string` (lines 33-40): more than 5 pods
render as the first 4 `namespace/name` entries joined by `, ` followed by
`, and K others` with K = total - 4; otherwise all entries are joined. -/
def _generate_pod_string (pods : List Pod) : String :=
  if pods.length > 5 then
    String.intercalate ", "
        ((pods.take 4).map (fun pod => pod.nspace ++ "/" ++ pod.name))
      ++ ", and " ++ toString (pods.length - 4) ++ " others"
  else
    String.intercalate ", "
      (pods.map (fun pod => pod.nspace ++ "/" ++ pod.name))

/-- TTL of the dedup cache: `TTLCache(maxsize=128, ttl=60*30)` (line 62). -/
def cacheTTL : Nat := 60 * 30

/-- Maximum entry count of the dedup cache (line 62). -/
def cacheMaxsize : Nat := 128

/-- The `Notifier.cache` TTLCache: an association list from cache key to the
absolute expiry time `insert_time + ttl`, kept in insertion order (oldest
first).  cachetools removes expired entries lazily, so expired pairs may
remain in the list; lookups ignore them. -/
abbrev Cache := List (String × Nat)

/-- The empty cache, as built in `Notifier.__init__`. -/
def Cache.empty : Cache := []

/-- TTLCache lookup at clock time `now`: a key hits iff an entry for it is
present and unexpired (`now < expires`, cachetools checks
`link.expires > timer()`). -/
def Cache.hit (c : Cache) (now : Nat) (k : String) : Bool :=
  match List.find? (fun e => e.1 = k) c with
  | some e => decide (now < e.2)
  | none => false

/-- TTLCache `__setitem__` at clock time `now`: expired entries are purged
(`self.expire(time)`), any old entry for the key is replaced, the new entry
expires at `now + cacheTTL`, and if the cache is still over capacity the
oldest entry is evicted (never reached in this development: all traces keep
fewer than 128 live keys). -/
def Cache.store (c : Cache) (now : Nat) (k : String) : Cache :=
  let purged := (List.filter (fun e => decide (now < e.2)) c).filter
    (fun e => e.1 ≠ k)
  let appended := purged ++ [(k, now + cacheTTL)]
  if appended.length > cacheMaxsize then appended.drop 1 else appended

/-- One observable external effect of the notifier: a structured log record
(one per pod, with the event word and the extra fields), a debug or
critical log line, a broadcast `requests.post(self.hook, ...)`, or a direct
`requests.post(self.MESSAGE_URL, ...)` to one owner. -/
inductive Output where
  | structRecord (message : String) (pod : Pod) (extra : List (String × String))
  | debugLog (text : String)
  | criticalLog (text : String)
  | broadcastPost (text : String)
  | directPost (owner : String) (text : String) (attachmentsText : String)
deriving DecidableEq, Repr

/-- Whether an output is a direct-message transport call. -/
def Output.isDirectPost : Output → Bool
  | .directPost _ _ _ => true
  | _ => false

/-- Whether an output is a broadcast transport call. -/
def Output.isBroadcastPost : Output → Bool
  | .broadcastPost _ => true
  | _ => false

/-- Environment outcome of a broadcast `requests.post(self.hook, ...)`:
a response, a `requests.exceptions.ConnectionError` (the only class the
broadcast sites catch), or any other raised exception (for example
`requests.exceptions.ReadTimeout`), which those sites do not catch. -/
inductive BroadcastOutcome where
  | ok (respText : String)
  | connError (msg : String)
  | otherError (msg : String)
deriving DecidableEq, Repr

/-- Environment outcome of a direct `requests.post(self.MESSAGE_URL, ...)`:
a response, or a raised `requests.exceptions.RequestException` (the class
`message_owner` catches; every exception `requests.post` raises is one). -/
inductive DirectOutcome where
  | ok (respText : String)
  | requestError (msg : String)
deriving DecidableEq, Repr

/-- notification.py `struct_log` (lines 43-52): one structured debug record
per pod. -/
def struct_log (message : String) (pods : List Pod)
    (extra : List (String × String)) : List Output :=
  pods.map (fun pod => Output.structRecord message pod extra)

/-- Body of `Notifier.message_owner` (lines 181-198), the uncached method:
posts the direct message with the `Relevant pods` attachment, logging the
response at debug or a caught `RequestException` at critical.  The raised
exception of `requests.post` is the `outcome` parameter. -/
def message_owner_body (owner message : String) (pods : List Pod)
    (outcome : DirectOutcome) : List Output :=
  let attachmentsText :=
    String.intercalate ", " (pods.map (fun pod => pod.nspace ++ "/" ++ pod.name))
  match outcome with
  | .ok respText =>
      [Output.directPost owner message attachmentsText,
       Output.debugLog ("SLACK: " ++ respText)]
  | .requestError msg =>
      [Output.directPost owner message attachmentsText,
       Output.criticalLog ("Failed to SLACK: " ++ msg)]

/-- `Notifier.message_owner` as called: the `cachedmethod` wrapper (line
180) around `message_owner_body`, with no `lock` argument.  At clock time
`now` it computes `_cache_key`, returns without effect on a cache hit, and
on a miss runs the body and then stores the result under the key.  The
returned Bool records whether the body ran (the send was performed) — the
spec's `TrySend` result. -/
def message_owner (c : Cache) (now : Nat) (owner message : String)
    (pods : List Pod) (outcome : DirectOutcome) :
    Bool × List Output × Cache :=
  let k := _cache_key owner message pods
  if c.hit now k then
    (false, [], c)
  else
    (true, message_owner_body owner message pods outcome, c.store now k)

/-- Insertion-order grouping that mirrors
`pods_by_owner.setdefault(pod.owner, []).append(pod)` for one pod. -/
def addToGroup : List (String × List Pod) → String → Pod →
    List (String × List Pod)
  | [], o, pod => [(o, [pod])]
  | (o', ps) :: rest, o, pod =>
      if o' = o then (o', ps ++ [pod]) :: rest
      else (o', ps) :: addToGroup rest o pod

/-- The grouping loop of `Notifier.message_owners` (lines 172-175): pods
with a falsy `owner` are skipped; the rest are grouped by owner in
first-appearance order, preserving pod order inside each group (Python
dict iteration order is insertion order). -/
def groupByOwner (pods : List Pod) : List (String × List Pod) :=
  pods.foldl
    (fun acc pod =>
      match pod.owner with
      | none => acc
      | some o => addToGroup acc o pod)
    []

/-- `Notifier.message_owners` (lines 167-178) at clock time `now`: without
a bot token it only logs at debug; otherwise it calls `message_owner` for
each owner group in order, threading the shared cache.  `direct` gives the
environment outcome of the direct post attempted for each owner. -/
def message_owners (c : Cache) (now : Nat) (botToken : Option String)
    (message : String) (pods : List Pod)
    (direct : String → DirectOutcome) : List Output × Cache :=
  match botToken with
  | none => ([Output.debugLog "SLACK_BOT_TOKEN not configured."], c)
  | some _ =>
      (groupByOwner pods).foldl
        (fun acc grp =>
          let r := message_owner acc.2 now grp.1 message grp.2 (direct grp.1)
          (acc.1 ++ r.2.1, r.2.2))
        ([], c)

/-- Result of one notify entry point: the trace of external effects, the
final dedup cache, and `raised = some e` when an uncaught exception
propagates to the caller (side effects before the raise stay in the
trace). -/
structure NotifyResult where
  outputs : List Output
  cache : Cache
  raised : Option String
deriving DecidableEq, Repr

/-- The broadcast try/except shared by all four notify methods (for example
lines 79-87): post to the hook, log the response at debug; a
`ConnectionError` is caught and logged at critical; any other exception
propagates.  Returns the outputs of the step and the propagated exception,
if any. -/
def broadcastStep (message : String) (outcome : BroadcastOutcome) :
    List Output × Option String :=
  match outcome with
  | .ok respText =>
      ([Output.broadcastPost message, Output.debugLog ("SLACK: " ++ respText)],
       none)
  | .connError msg =>
      ([Output.broadcastPost message,
        Output.criticalLog ("Failed to SLACK: " ++ msg)], none)
  | .otherError msg => ([Output.broadcastPost message], some msg)

/-- `Notifier.notify_scale` (lines 64-90) at clock time `now`, for a
notifier with configuration `hook`/`botToken` and dedup cache `c`:
structured log per pod, early return when no hook is configured, broadcast
of the scaling message, then owner messaging with the short
`ASG name[region] scaling up` text.  `bcast` and `direct` are the
environment outcomes of the transport calls. -/
def notify_scale (c : Cache) (now : Nat) (hook botToken : Option String)
    (asg : Asg) (units_requested : Nat) (pods : List Pod)
    (bcast : BroadcastOutcome) (direct : String → DirectOutcome) :
    NotifyResult :=
  let logs := struct_log "scale" pods
    [("asg", asg.strRepr), ("units_requested", toString units_requested)]
  match hook with
  | none =>
      ⟨logs ++ [Output.debugLog "SLACK_HOOK not configured."], c, none⟩
  | some _ =>
      let pods_string := _generate_pod_string pods
      let message :=
        "ASG " ++ asg.name ++ "[" ++ asg.region ++ "] scaling up by "
          ++ toString units_requested ++ " to new capacity "
          ++ toString asg.desired_capacity ++ "\n"
          ++ "Change triggered by " ++ pods_string
      let b := broadcastStep message bcast
      match b.2 with
      | some e => ⟨logs ++ b.1, c, some e⟩
      | none =>
          let m := message_owners c now botToken
            ("ASG " ++ asg.name ++ "[" ++ asg.region ++ "] scaling up")
            pods direct
          ⟨logs ++ b.1 ++ m.1, m.2, none⟩

/-- `Notifier.notify_failed_to_scale` (lines 92-117) at clock time `now`.
`selectorsHashJson` stands for `json.dumps(selectors_hash)`; the raw
`selectors_hash` object reaches only the structured-log extra and is
represented by the same string. -/
def notify_failed_to_scale (c : Cache) (now : Nat)
    (hook botToken : Option String) (selectorsHashJson : String)
    (pods : List Pod) (bcast : BroadcastOutcome)
    (direct : String → DirectOutcome) : NotifyResult :=
  let logs := struct_log "failed to scale" pods
    [("selectors_hash", selectorsHashJson)]
  match hook with
  | none =>
      ⟨logs ++ [Output.debugLog "SLACK_HOOK not configured."], c, none⟩
  | some _ =>
      let pods_string := _generate_pod_string pods
      let main_message :=
        "Failed to scale " ++ selectorsHashJson
          ++ " sufficiently. Backing off..."
      let message := main_message ++ "\n" ++ "Pods affected: " ++ pods_string
      let b := broadcastStep message bcast
      match b.2 with
      | some e => ⟨logs ++ b.1, c, some e⟩
      | none =>
          let m := message_owners c now botToken main_message pods direct
          ⟨logs ++ b.1 ++ m.1, m.2, none⟩

/-- `Notifier.notify_invalid_pod_capacity` (lines 119-142) at clock time
`now`.  `recommended_capacity` is the `str()`/format rendering of the
recommended-capacity object. -/
def notify_invalid_pod_capacity (c : Cache) (now : Nat)
    (hook botToken : Option String) (pod : Pod)
    (recommended_capacity : String) (bcast : BroadcastOutcome)
    (direct : String → DirectOutcome) : NotifyResult :=
  let logs := struct_log "invalid pod capacity" [pod]
    [("recommended_capacity", recommended_capacity)]
  match hook with
  | none =>
      ⟨logs ++ [Output.debugLog "SLACK_HOOK not configured."], c, none⟩
  | some _ =>
      let message :=
        "Pending pod " ++ pod.nspace ++ "/" ++ pod.name ++ " cannot fit "
          ++ pod.selectorsJson ++ ". "
          ++ "Please check that requested resource amount is "
          ++ "consistent with node selectors (recommended max: "
          ++ recommended_capacity ++ "). "
          ++ "Scheduling skipped."
      let b := broadcastStep message bcast
      match b.2 with
      | some e => ⟨logs ++ b.1, c, some e⟩
      | none =>
          let m := message_owners c now botToken message [pod] direct
          ⟨logs ++ b.1 ++ m.1, m.2, none⟩

/-- `Notifier.notify_drained_node` (lines 144-165) at clock time `now`:
structured log per pod, early return when no hook is configured, then the
broadcast only — this method never calls `message_owners`.  `node` is the
`str()` rendering of the node object. -/
def notify_drained_node (c : Cache) (now : Nat)
    (hook : Option String) (node : String) (pods : List Pod)
    (bcast : BroadcastOutcome) : NotifyResult :=
  let logs := struct_log "drain" pods [("node", node)]
  match hook with
  | none =>
      ⟨logs ++ [Output.debugLog "SLACK_HOOK not configured."], c, none⟩
  | some _ =>
      let pods_string := _generate_pod_string pods
      let message :=
        "Node " ++ node ++ " drained." ++ "\n"
          ++ "Pod affected: " ++ pods_string
      let b := broadcastStep message bcast
      ⟨logs ++ b.1, c, b.2⟩

/-- Helper for concrete pods: selectors render as the empty JSON object. -/
def mkPod (uid nspace name : String) (owner : Option String) : Pod :=
  ⟨uid, nspace, name, owner, "\x7b\x7d"⟩

/-- A pod owned by alice, uid `id1`. -/
def podAlice : Pod := mkPod "id1" "default" "p1" (some "alice")

/-- A second pod owned by alice, uid `id2`. -/
def podAlice2 : Pod := mkPod "id2" "default" "p2" (some "alice")

/-- A pod with no owner. -/
def podNoOwner : Pod := mkPod "id0" "default" "p0" none

/-- Pod with uid `x`. -/
def podX : Pod := mkPod "x" "ns" "q1" (some "alice")

/-- Pod with uid `y`. -/
def podY : Pod := mkPod "y" "ns" "q2" (some "alice")

/-- Pod with uid `xy`. -/
def podXY : Pod := mkPod "xy" "ns" "q3" (some "alice")

/-- Numbered unowned pod in namespace `ns`. -/
def podN (i : Nat) : Pod :=
  mkPod ("id" ++ toString i) "ns" ("pod" ++ toString i) none

/-- A five-pod list (truncation boundary: rendered in full). -/
def fivePods : List Pod := [podN 1, podN 2, podN 3, podN 4, podN 5]

/-- A six-pod list (truncation boundary: rendered truncated). -/
def sixPods : List Pod := [podN 1, podN 2, podN 3, podN 4, podN 5, podN 6]

/-- A sample ASG. -/
def asgEx : Asg := ⟨"asg-1", "us-east-1", 10, "asg-1"⟩

/-- `lexLe` is total. -/
theorem lexLe_total : ∀ as bs : List Char, lexLe as bs = true ∨ lexLe bs as = true
  | [], _ => Or.inl rfl
  | _ :: _, [] => Or.inr rfl
  | a :: as, b :: bs => by
    rcases Nat.lt_trichotomy a.toNat b.toNat with h | h | h
    · left
      simp [lexLe, h]
    · have h1 : ¬ a.toNat < b.toNat := by omega
      have h2 : ¬ b.toNat < a.toNat := by omega
      rcases lexLe_total as bs with hr | hr
      · left
        simp [lexLe, h1, h2, hr]
      · right
        simp [lexLe, h1, h2, hr]
    · right
      simp [lexLe, h]

/-- `lexLe` is transitive. -/
theorem lexLe_trans : ∀ as bs cs : List Char,
    lexLe as bs = true → lexLe bs cs = true → lexLe as cs = true
  | [], _, _ => fun _ _ => rfl
  | _ :: _, [], _ => by intro h; simp [lexLe] at h
  | _ :: _, _ :: _, [] => by intro _ h; simp [lexLe] at h
  | a :: as, b :: bs, c :: cs => by
    intro h1 h2
    simp only [lexLe] at h1 h2 ⊢
    rcases Nat.lt_trichotomy a.toNat c.toNat with hac | hac | hac
    · rw [if_pos hac]
    · rw [if_neg (by omega), if_neg (by omega)]
      rcases Nat.lt_trichotomy a.toNat b.toNat with hab | hab | hab
      · rw [if_neg (by omega), if_pos (by omega)] at h2
        simp at h2
      · rw [if_neg (by omega), if_neg (by omega)] at h1
        rw [if_neg (by omega), if_neg (by omega)] at h2
        exact lexLe_trans as bs cs h1 h2
      · rw [if_neg (by omega), if_pos (by omega)] at h1
        simp at h1
    · exfalso
      rcases Nat.lt_trichotomy a.toNat b.toNat with hab | hab | hab
      · rw [if_neg (by omega), if_pos (by omega)] at h2
        simp at h2
      · rw [if_neg (by omega), if_pos (by omega)] at h2
        simp at h2
      · rw [if_neg (by omega), if_pos (by omega)] at h1
        simp at h1

/-- `lexLe` is antisymmetric. -/
theorem lexLe_antisymm : ∀ as bs : List Char,
    lexLe as bs = true → lexLe bs as = true → as = bs
  | [], [] => fun _ _ => rfl
  | [], _ :: _ => by intro _ h; simp [lexLe] at h
  | _ :: _, [] => by intro h _; simp [lexLe] at h
  | a :: as, b :: bs => by
    intro h1 h2
    simp only [lexLe] at h1 h2
    rcases Nat.lt_trichotomy a.toNat b.toNat with hab | hab | hab
    · rw [if_neg (by omega), if_pos (by omega)] at h2
      simp at h2
    · rw [if_neg (by omega), if_neg (by omega)] at h1
      rw [if_neg (by omega), if_neg (by omega)] at h2
      have hc : a = b := Char.ext (UInt32.ext hab)
      rw [hc, lexLe_antisymm as bs h1 h2]
    · rw [if_neg (by omega), if_pos (by omega)] at h1
      simp at h1

instance : IsTotal String strLe := ⟨fun a b => lexLe_total a.data b.data⟩

instance : IsTrans String strLe :=
  ⟨fun a b c => lexLe_trans a.data b.data c.data⟩

instance : IsAntisymm String strLe :=
  ⟨fun a b h1 h2 => String.ext (lexLe_antisymm a.data b.data h1 h2)⟩

/-- Mapping `Pod.uid` over an ordered insert by uid is an ordered insert of
the uid into the mapped list. -/
theorem map_uid_orderedInsert (p : Pod) (l : List Pod) :
    (List.orderedInsert podLe p l).map Pod.uid
      = List.orderedInsert strLe p.uid (l.map Pod.uid) := by
  induction l with
  | nil => rfl
  | cons q l ih =>
    by_cases h : podLe p q
    · rw [List.map_cons, List.orderedInsert_of_le strLe (l.map Pod.uid) h,
        List.orderedInsert_of_le podLe l h]
      rfl
    · have e1 : List.orderedInsert podLe p (q :: l)
          = q :: List.orderedInsert podLe p l := by
        simp only [List.orderedInsert]
        rw [if_neg h]
      have e2 : List.orderedInsert strLe p.uid (q.uid :: l.map Pod.uid)
          = q.uid :: List.orderedInsert strLe p.uid (l.map Pod.uid) := by
        simp only [List.orderedInsert]
        rw [if_neg (show ¬ strLe p.uid q.uid from h)]
      rw [List.map_cons, e1, e2, List.map_cons, ih]

/-- The uid sequence of `sortByUid` is the insertion sort of the uid
sequence. -/
theorem map_uid_sortByUid (l : List Pod) :
    (sortByUid l).map Pod.uid
      = List.insertionSort strLe (l.map Pod.uid) := by
  induction l with
  | nil => rfl
  | cons p l ih =>
    simp only [sortByUid, List.insertionSort, List.map_cons] at ih ⊢
    rw [map_uid_orderedInsert, ih]

/-- Permuting the pod list does not change the sorted uid sequence. -/
theorem sortByUid_map_uid_perm {l1 l2 : List Pod} (h : l1.Perm l2) :
    (sortByUid l1).map Pod.uid = (sortByUid l2).map Pod.uid := by
  rw [map_uid_sortByUid, map_uid_sortByUid]
  refine List.eq_of_perm_of_sorted (r := strLe) ?_ ?_ ?_
  · exact ((List.perm_insertionSort _ _).trans (h.map Pod.uid)).trans
      (List.perm_insertionSort _ _).symm
  · exact List.sorted_insertionSort _ _
  · exact List.sorted_insertionSort _ _

/-- The digest stream of `_cache_key`, before hashing. -/
theorem cache_key_eq_digest (owner message : String) (pods : List Pod) :
    _cache_key owner message pods
      = "v0.md5." ++ (owner ++ message
          ++ String.join ((sortByUid pods).map Pod.uid)) := rfl

/-- C2.  The claim asserts key equality both under reordering and under
duplication of units.  Reordering-equality holds (see the amended theorem);
duplication-equality fails: `_cache_key` hashes every element of the
uid-sorted pod list, without deduplication, so `[podX]` and
`[podX, podX]` — the same unit-ID set — produce different keys. -/
theorem cache_key_duplicate_sensitive :
    ((([podX, podX]).map Pod.uid).toFinset = (([podX]).map Pod.uid).toFinset)
      ∧ _cache_key "a" "m" [podX, podX] ≠ _cache_key "a" "m" [podX] := by
  constructor
  · decide
  · decide

/-- C2 (amended).  Two calls with the same owner, the same message and unit
lists that are permutations of each other (same multiset of units, in any
order) produce the identical cache key: `_cache_key` sorts by uid before
hashing.  Lists that differ by duplicated elements are not covered: each
occurrence is hashed. -/
theorem cache_key_order_independent (owner message : String)
    {l1 l2 : List Pod} (h : l1.Perm l2) :
    _cache_key owner message l1 = _cache_key owner message l2 := by
  unfold _cache_key md5_hexdigest
  rw [sortByUid_map_uid_perm h]

/-- Witness for the amended C2 theorem at a concrete permutation. -/
theorem cache_key_order_independent_witness :
    _cache_key "a" "m" [podX, podY] = _cache_key "a" "m" [podY, podX] :=
  cache_key_order_independent "a" "m" (by decide)

/-- Finding a key in an association list whose earlier entries all carry
other keys reaches the final entry. -/
theorem find?_key_append_singleton (l : Cache) (k : String) (v : Nat)
    (h : ∀ e ∈ l, e.1 ≠ k) :
    List.find? (fun e => e.1 = k) (l ++ [(k, v)]) = some (k, v) := by
  induction l with
  | nil => simp
  | cons hd tl ih =>
    have h1 : ¬ hd.1 = k := h hd (by simp)
    rw [List.cons_append, List.find?_cons]
    have hdec : (decide (hd.1 = k)) = false := by
      simp [h1]
    rw [hdec]
    exact ih (fun e he => h e (by simp [he]))

/-- After `store now k`, looking the key up at time `t` hits exactly when
`t` lies inside the TTL window that started at `now` — whatever the prior
cache contents and whether or not the capacity eviction fired. -/
theorem Cache.hit_store_same (c : Cache) (now k t) :
    (c.store now k).hit t k = decide (t < now + cacheTTL) := by
  unfold Cache.store Cache.hit
  have hp : ∀ e ∈ (List.filter (fun e => decide (now < e.2)) c).filter
      (fun e => e.1 ≠ k), e.1 ≠ k := by
    intro e he
    have := (List.mem_filter.mp he).2
    simpa using this
  set purged := (List.filter (fun e => decide (now < e.2)) c).filter
    (fun e => e.1 ≠ k) with hpurged
  by_cases hlen : (purged ++ [(k, now + cacheTTL)]).length > cacheMaxsize
  · rw [if_pos hlen]
    match hq : purged with
    | [] =>
        simp [cacheMaxsize] at hlen
    | e0 :: rest =>
        rw [List.cons_append, List.drop_one, List.tail_cons]
        rw [find?_key_append_singleton rest k (now + cacheTTL)
          (fun e he => hp e (List.mem_cons_of_mem e0 he))]
  · rw [if_neg hlen]
    rw [find?_key_append_singleton purged k (now + cacheTTL) hp]

/-- A hit leaves `message_owner` without effect: no outputs, same cache,
result `false`. -/
theorem message_owner_hit (c : Cache) (now : Nat) (owner message : String)
    (pods : List Pod) (outcome : DirectOutcome)
    (h : c.hit now (_cache_key owner message pods) = true) :
    message_owner c now owner message pods outcome = (false, [], c) := by
  simp [message_owner, h]

/-- A miss makes `message_owner` run the body and store the key. -/
theorem message_owner_miss (c : Cache) (now : Nat) (owner message : String)
    (pods : List Pod) (outcome : DirectOutcome)
    (h : c.hit now (_cache_key owner message pods) = false) :
    message_owner c now owner message pods outcome
      = (true, message_owner_body owner message pods outcome,
         c.store now (_cache_key owner message pods)) := by
  simp [message_owner, h]

/-- Sequential replay of `message_owner` calls with fixed arguments at the
given clock times, threading the cache. -/
def runCalls (c : Cache) (times : List Nat) (owner message : String)
    (pods : List Pod) (outcome : DirectOutcome) : List Bool × Cache :=
  match times with
  | [] => ([], c)
  | t :: ts =>
      let r := message_owner c t owner message pods outcome
      let rest := runCalls r.2.2 ts owner message pods outcome
      (r.1 :: rest.1, rest.2)

/-- If every queried time hits, the replay sends nothing and leaves the
cache unchanged. -/
theorem runCalls_all_hits (owner message : String) (pods : List Pod)
    (outcome : DirectOutcome) (c : Cache) (ts : List Nat)
    (h : ∀ t ∈ ts, c.hit t (_cache_key owner message pods) = true) :
    runCalls c ts owner message pods outcome
      = (ts.map (fun _ => false), c) := by
  induction ts with
  | nil => rfl
  | cons t ts ih =>
    have hr := message_owner_hit c t owner message pods outcome (h t (by simp))
    simp only [runCalls, hr,
      ih (fun t' ht' => h t' (List.mem_cons_of_mem t ht')), List.map_cons]

/-- Left cancellation of string concatenation. -/
theorem string_append_left_cancel {a b c : String} (h : a ++ b = a ++ c) :
    b = c := by
  apply String.ext
  have h2 := congrArg String.data h
  rw [String.data_append, String.data_append] at h2
  exact List.append_cancel_left h2

/-- Right cancellation of string concatenation. -/
theorem string_append_right_cancel {a b c : String} (h : a ++ c = b ++ c) :
    a = b := by
  apply String.ext
  have h2 := congrArg String.data h
  rw [String.data_append, String.data_append] at h2
  exact List.append_cancel_right h2

/-- C1.  Dedup window of the fingerprint-guarded direct send: starting from
a cache where the fingerprint of (owner, message, pods) does not hit at
time `t0`, the call at `t0` performs the send; every subsequent call with
the same fingerprint at times inside `[t0, t0 + 1800)` performs no send and
leaves the cache unchanged; the next call at a time `t2 ≥ t0 + 1800`
performs the send again; and the window restarts at `t2`: a further call at
`t3 ∈ [t2, t2 + 1800)` again performs no send. -/
theorem trySend_dedup_window
    (c0 : Cache) (t0 : Nat) (owner message : String) (pods : List Pod)
    (outcome : DirectOutcome) (ts : List Nat) (t2 t3 : Nat)
    (h0 : c0.hit t0 (_cache_key owner message pods) = false)
    (hts : ∀ t ∈ ts, t0 ≤ t ∧ t < t0 + cacheTTL)
    (h2 : t0 + cacheTTL ≤ t2) (h3 : t2 ≤ t3) (h4 : t3 < t2 + cacheTTL) :
    (message_owner c0 t0 owner message pods outcome).1 = true
    ∧ (runCalls (c0.store t0 (_cache_key owner message pods)) ts
        owner message pods outcome).1 = ts.map (fun _ => false)
    ∧ (runCalls (c0.store t0 (_cache_key owner message pods)) ts
        owner message pods outcome).2
        = c0.store t0 (_cache_key owner message pods)
    ∧ (message_owner c0 t0 owner message pods outcome).2.2
        = c0.store t0 (_cache_key owner message pods)
    ∧ (message_owner (c0.store t0 (_cache_key owner message pods)) t2
        owner message pods outcome).1 = true
    ∧ (message_owner
        ((c0.store t0 (_cache_key owner message pods)).store t2
          (_cache_key owner message pods)) t3
        owner message pods outcome).1 = false := by
  have hm0 := message_owner_miss c0 t0 owner message pods outcome h0
  have hhit1 : ∀ t ∈ ts,
      (c0.store t0 (_cache_key owner message pods)).hit t
        (_cache_key owner message pods) = true := by
    intro t ht
    rw [Cache.hit_store_same]
    exact decide_eq_true (hts t ht).2
  have hrun := runCalls_all_hits owner message pods outcome _ ts hhit1
  have hmiss2 : (c0.store t0 (_cache_key owner message pods)).hit t2
      (_cache_key owner message pods) = false := by
    rw [Cache.hit_store_same]
    exact decide_eq_false (by omega)
  have hm2 := message_owner_miss _ t2 owner message pods outcome hmiss2
  have hhit3 : ((c0.store t0 (_cache_key owner message pods)).store t2
      (_cache_key owner message pods)).hit t3
      (_cache_key owner message pods) = true := by
    rw [Cache.hit_store_same]
    exact decide_eq_true (by omega)
  have hm3 := message_owner_hit _ t3 owner message pods outcome hhit3
  refine ⟨?_, ?_, ?_, ?_, ?_, ?_⟩
  · rw [hm0]
  · rw [hrun]
  · rw [hrun]
  · rw [hm0]
  · rw [hm2]
  · rw [hm3]

/-- Witness for the C1 theorem on a concrete trace: send at time 0,
suppressed at 10 and 1799, sent again at 1800, suppressed again at 2000. -/
theorem trySend_dedup_window_witness :
    (message_owner Cache.empty 0 "a" "m" [podAlice] (.ok "r")).1 = true
    ∧ (runCalls (Cache.empty.store 0 (_cache_key "a" "m" [podAlice]))
        [10, 1799] "a" "m" [podAlice] (.ok "r")).1 = [false, false]
    ∧ (runCalls (Cache.empty.store 0 (_cache_key "a" "m" [podAlice]))
        [10, 1799] "a" "m" [podAlice] (.ok "r")).2
        = Cache.empty.store 0 (_cache_key "a" "m" [podAlice])
    ∧ (message_owner Cache.empty 0 "a" "m" [podAlice] (.ok "r")).2.2
        = Cache.empty.store 0 (_cache_key "a" "m" [podAlice])
    ∧ (message_owner (Cache.empty.store 0 (_cache_key "a" "m" [podAlice]))
        1800 "a" "m" [podAlice] (.ok "r")).1 = true
    ∧ (message_owner
        ((Cache.empty.store 0 (_cache_key "a" "m" [podAlice])).store 1800
          (_cache_key "a" "m" [podAlice])) 2000
        "a" "m" [podAlice] (.ok "r")).1 = false :=
  trySend_dedup_window Cache.empty 0 "a" "m" [podAlice] (.ok "r")
    [10, 1799] 1800 2000 (by decide) (by decide) (by decide) (by decide)
    (by decide)

/-- C10.  A failed direct send still consumes the dedup window: when the
transport call inside `message_owner` raises a caught-and-logged
`RequestException`, the method still returns normally through the
`cachedmethod` wrapper, so the fingerprint is stored; any call with the
same fingerprint inside the TTL window performs no transport call and the
cache is not rolled back. -/
theorem failed_send_consumes_window
    (c : Cache) (t0 t1 : Nat) (owner message : String) (pods : List Pod)
    (e : String) (outcome2 : DirectOutcome)
    (h0 : c.hit t0 (_cache_key owner message pods) = false)
    (h1 : t0 ≤ t1) (h2 : t1 < t0 + cacheTTL) :
    (message_owner c t0 owner message pods (.requestError e)).1 = true
    ∧ Output.criticalLog ("Failed to SLACK: " ++ e)
        ∈ (message_owner c t0 owner message pods (.requestError e)).2.1
    ∧ (message_owner c t0 owner message pods (.requestError e)).2.2
        = c.store t0 (_cache_key owner message pods)
    ∧ message_owner (c.store t0 (_cache_key owner message pods)) t1
        owner message pods outcome2
        = (false, [], c.store t0 (_cache_key owner message pods)) := by
  have hm0 := message_owner_miss c t0 owner message pods (.requestError e) h0
  refine ⟨?_, ?_, ?_, ?_⟩
  · rw [hm0]
  · rw [hm0]
    simp [message_owner_body]
  · rw [hm0]
  · apply message_owner_hit
    rw [Cache.hit_store_same]
    exact decide_eq_true (by omega)

/-- Witness for the C10 theorem at a concrete failing send. -/
theorem failed_send_consumes_window_witness :
    (message_owner Cache.empty 0 "a" "m" [podAlice] (.requestError "boom")).1
      = true
    ∧ Output.criticalLog ("Failed to SLACK: " ++ "boom")
        ∈ (message_owner Cache.empty 0 "a" "m" [podAlice]
            (.requestError "boom")).2.1
    ∧ (message_owner Cache.empty 0 "a" "m" [podAlice]
        (.requestError "boom")).2.2
        = Cache.empty.store 0 (_cache_key "a" "m" [podAlice])
    ∧ message_owner (Cache.empty.store 0 (_cache_key "a" "m" [podAlice])) 100
        "a" "m" [podAlice] (.ok "r")
        = (false, [], Cache.empty.store 0 (_cache_key "a" "m" [podAlice])) :=
  failed_send_consumes_window Cache.empty 0 100 "a" "m" [podAlice] "boom"
    (.ok "r") (by decide) (by decide) (by decide)

/-- C3 is false as stated: the digest concatenates the sorted uids with no
separator, so distinct unit-ID sets can feed MD5 the identical byte
stream.  Units with uids `x` and `y` versus a single unit with uid `xy`
give different unit-ID sets but the same cache key (same md5 input), so the
second call's outcome is not independent of the first. -/
theorem cache_key_uid_concat_collision :
    (([podX, podY].map Pod.uid).toFinset ≠ ([podXY].map Pod.uid).toFinset)
    ∧ _cache_key "a" "m" [podX, podY] = _cache_key "a" "m" [podXY] := by
  constructor
  · decide
  · decide

/-- C3 (amended).  Changing only the owner, or only the message, always
changes the fingerprint key; changing the unit list changes the key
exactly when the concatenation of the sorted uids changes (which distinct
unit-ID sets can fail to do).  In particular the spec's example holds:
`TrySend("a","m",[u1])` followed by `TrySend("a","m",[u1,u2])` both
perform the send. -/
theorem cache_key_distinctness_amended :
    (∀ (o1 o2 m : String) (pods : List Pod), o1 ≠ o2 →
        _cache_key o1 m pods ≠ _cache_key o2 m pods)
    ∧ (∀ (o m1 m2 : String) (pods : List Pod), m1 ≠ m2 →
        _cache_key o m1 pods ≠ _cache_key o m2 pods)
    ∧ (∀ (o m : String) (pods1 pods2 : List Pod),
        String.join ((sortByUid pods1).map Pod.uid)
          ≠ String.join ((sortByUid pods2).map Pod.uid) →
        _cache_key o m pods1 ≠ _cache_key o m pods2)
    ∧ ((message_owner Cache.empty 0 "a" "m" [podAlice] (.ok "r")).1 = true
        ∧ (message_owner
            (message_owner Cache.empty 0 "a" "m" [podAlice] (.ok "r")).2.2
            0 "a" "m" [podAlice, podAlice2] (.ok "r")).1 = true) := by
  refine ⟨?_, ?_, ?_, ?_⟩
  · intro o1 o2 m pods hne heq
    apply hne
    rw [cache_key_eq_digest, cache_key_eq_digest] at heq
    exact string_append_right_cancel
      (string_append_right_cancel (string_append_left_cancel heq))
  · intro o m1 m2 pods hne heq
    apply hne
    rw [cache_key_eq_digest, cache_key_eq_digest] at heq
    exact string_append_left_cancel
      (string_append_right_cancel (string_append_left_cancel heq))
  · intro o m pods1 pods2 hne heq
    apply hne
    rw [cache_key_eq_digest, cache_key_eq_digest] at heq
    exact string_append_left_cancel (string_append_left_cancel heq)
  · constructor
    · decide
    · decide

/-- Witness for the amended C3 theorem: concrete owner-only, message-only
and unit-list changes each flip the key. -/
theorem cache_key_distinctness_amended_witness :
    _cache_key "a" "m" [podAlice] ≠ _cache_key "b" "m" [podAlice]
    ∧ _cache_key "a" "m" [podAlice] ≠ _cache_key "a" "m2" [podAlice]
    ∧ _cache_key "a" "m" [podAlice]
        ≠ _cache_key "a" "m" [podAlice, podAlice2] :=
  ⟨cache_key_distinctness_amended.1 "a" "b" "m" [podAlice] (by decide),
   cache_key_distinctness_amended.2.1 "a" "m" "m2" [podAlice] (by decide),
   cache_key_distinctness_amended.2.2.1 "a" "m" [podAlice]
     [podAlice, podAlice2] (by decide)⟩

/-- Phase of one caller inside the `cachedmethod` wrapper of
`message_owner`.  With no `lock` argument the wrapper executes three
separate atomic actions on a miss: the dictionary read `c[k]` (atLookup),
the method body with its `requests.post` (atBody), and the dictionary
write `c[k] = v` (atStore); on a hit it returns after the read. -/
inductive CallerPhase where
  | atLookup
  | atBody
  | atStore
  | finishedHit
  | finishedSend
deriving DecidableEq, Repr

/-- Shared state of two callers racing on the identical fingerprint `k`:
the shared TTLCache, each caller's phase, and the number of direct sends
performed so far. -/
structure ConcState where
  cache : Cache
  phase0 : CallerPhase
  phase1 : CallerPhase
  sends : Nat
deriving DecidableEq, Repr

/-- One atomic action of a caller at clock time `now` on key `k`. -/
def stepCaller (now : Nat) (k : String) (c : Cache) (ph : CallerPhase)
    (sends : Nat) : Cache × CallerPhase × Nat :=
  match ph with
  | .atLookup =>
      if c.hit now k then (c, .finishedHit, sends) else (c, .atBody, sends)
  | .atBody => (c, .atStore, sends + 1)
  | .atStore => (c.store now k, .finishedSend, sends)
  | ph => (c, ph, sends)

/-- Interleaved execution of the two callers: a `false` schedule entry
steps caller 0, a `true` entry steps caller 1. -/
def runSchedule (now : Nat) (k : String) (s : ConcState) :
    List Bool → ConcState
  | [] => s
  | i :: rest =>
      let s' :=
        if i then
          let r := stepCaller now k s.cache s.phase1 s.sends
          ConcState.mk r.1 s.phase0 r.2.1 r.2.2
        else
          let r := stepCaller now k s.cache s.phase0 s.sends
          ConcState.mk r.1 r.2.1 s.phase1 r.2.2
      runSchedule now k s' rest

/-- C4 is false as stated: `cachedmethod` is applied to `message_owner`
with no `lock` argument, so the check and the mark are a separate read then
write, not a critical section.  Under the interleaving in which both
callers read before either writes, both observe a miss and both perform
the send: two trues, two transport calls — not exactly one. -/
theorem concurrent_trySend_double_send :
    (runSchedule 0 (_cache_key "a" "m" [podAlice])
        (ConcState.mk Cache.empty .atLookup .atLookup 0)
        [false, true, false, false, true, true]).phase0 = .finishedSend
    ∧ (runSchedule 0 (_cache_key "a" "m" [podAlice])
        (ConcState.mk Cache.empty .atLookup .atLookup 0)
        [false, true, false, false, true, true]).phase1 = .finishedSend
    ∧ (runSchedule 0 (_cache_key "a" "m" [podAlice])
        (ConcState.mk Cache.empty .atLookup .atLookup 0)
        [false, true, false, false, true, true]).sends = 2 := by
  refine ⟨?_, ?_, ?_⟩ <;> decide

/-- C4 (amended).  The check-and-mark of `message_owner` is not atomic:
with no lock, racing callers on the identical fingerprint may each perform
the send (see the interleaving counterexample).  Exactly-one holds only
when the calls are serialized: if one caller completes its
lookup-send-store before the other starts, the first performs the send and
the second observes the cached entry and performs none. -/
theorem serialized_trySend_exactly_one (k : String) (now : Nat) (c : Cache)
    (h : c.hit now k = false) :
    (runSchedule now k (ConcState.mk c .atLookup .atLookup 0)
        [false, false, false, true]).phase0 = .finishedSend
    ∧ (runSchedule now k (ConcState.mk c .atLookup .atLookup 0)
        [false, false, false, true]).phase1 = .finishedHit
    ∧ (runSchedule now k (ConcState.mk c .atLookup .atLookup 0)
        [false, false, false, true]).sends = 1 := by
  have hh : (c.store now k).hit now k = true := by
    rw [Cache.hit_store_same]
    exact decide_eq_true (Nat.lt_add_of_pos_right (by decide))
  refine ⟨?_, ?_, ?_⟩ <;> simp [runSchedule, stepCaller, h, hh]

/-- Witness for the amended C4 theorem from the empty cache. -/
theorem serialized_trySend_exactly_one_witness :
    (runSchedule 0 (_cache_key "a" "m" [podAlice])
        (ConcState.mk Cache.empty .atLookup .atLookup 0)
        [false, false, false, true]).phase0 = .finishedSend
    ∧ (runSchedule 0 (_cache_key "a" "m" [podAlice])
        (ConcState.mk Cache.empty .atLookup .atLookup 0)
        [false, false, false, true]).phase1 = .finishedHit
    ∧ (runSchedule 0 (_cache_key "a" "m" [podAlice])
        (ConcState.mk Cache.empty .atLookup .atLookup 0)
        [false, false, false, true]).sends = 1 :=
  serialized_trySend_exactly_one (_cache_key "a" "m" [podAlice]) 0
    Cache.empty (by decide)

/-- C5 is false as stated: the broadcast try/except in every notify method
catches only `requests.exceptions.ConnectionError`, so any other transport
exception — for example a `ReadTimeout` — propagates to the operation's
caller and aborts the remaining steps: no owner messaging happens even
though an owned pod and a bot token are present. -/
theorem broadcast_other_error_propagates :
    (notify_scale Cache.empty 0 (some "hook") (some "tok") asgEx 3
        [podAlice] (.otherError "Read timed out.") (fun _ => .ok "r")).raised
      = some "Read timed out."
    ∧ (notify_scale Cache.empty 0 (some "hook") (some "tok") asgEx 3
        [podAlice] (.otherError "Read timed out.")
        (fun _ => .ok "r")).outputs.all (fun o => !o.isDirectPost)
      = true := by
  refine ⟨?_, ?_⟩ <;> decide

/-- C5 (amended).  Best-effort error containment holds exactly for the
exception classes the code catches: a broadcast response or a broadcast
`ConnectionError` never raises to the caller of any of the four notify
operations (and the owner-messaging step still runs after a broadcast
`ConnectionError`); direct-send failures are always caught inside
`message_owner`, whatever their `RequestException` kind.  Broadcast errors
outside `ConnectionError` are not contained (see the counterexample). -/
theorem notify_best_effort_amended :
    (∀ (c : Cache) (now : Nat) (hook botToken : Option String) (asg : Asg)
        (n : Nat) (pods : List Pod) (r : String)
        (direct : String → DirectOutcome),
        (notify_scale c now hook botToken asg n pods (.ok r) direct).raised
          = none
        ∧ (notify_scale c now hook botToken asg n pods (.connError r)
            direct).raised = none)
    ∧ (∀ (c : Cache) (now : Nat) (hook botToken : Option String)
        (sel : String) (pods : List Pod) (r : String)
        (direct : String → DirectOutcome),
        (notify_failed_to_scale c now hook botToken sel pods (.ok r)
            direct).raised = none
        ∧ (notify_failed_to_scale c now hook botToken sel pods (.connError r)
            direct).raised = none)
    ∧ (∀ (c : Cache) (now : Nat) (hook botToken : Option String) (pod : Pod)
        (rc : String) (r : String) (direct : String → DirectOutcome),
        (notify_invalid_pod_capacity c now hook botToken pod rc (.ok r)
            direct).raised = none
        ∧ (notify_invalid_pod_capacity c now hook botToken pod rc
            (.connError r) direct).raised = none)
    ∧ (∀ (c : Cache) (now : Nat) (hook : Option String) (node : String)
        (pods : List Pod) (r : String),
        (notify_drained_node c now hook node pods (.ok r)).raised = none
        ∧ (notify_drained_node c now hook node pods (.connError r)).raised
          = none) := by
  refine ⟨?_, ?_, ?_, ?_⟩
  · intro c now hook botToken asg n pods r direct
    cases hook <;> exact ⟨rfl, rfl⟩
  · intro c now hook botToken sel pods r direct
    cases hook <;> exact ⟨rfl, rfl⟩
  · intro c now hook botToken pod rc r direct
    cases hook <;> exact ⟨rfl, rfl⟩
  · intro c now hook node pods r
    cases hook <;> exact ⟨rfl, rfl⟩

/-- C6 is false as stated: when the broadcast hook is not configured,
`notify_scale` logs the debug line and returns — it never reaches
`message_owners`, even with a bot token configured and an owned pod, so no
direct message is attempted and the cache is untouched. -/
theorem no_hook_skips_owner_messaging :
    notify_scale Cache.empty 0 none (some "tok") asgEx 3 [podAlice]
        (.ok "r") (fun _ => .ok "r")
      = NotifyResult.mk
          [Output.structRecord "scale" podAlice
            [("asg", "asg-1"), ("units_requested", "3")],
           Output.debugLog "SLACK_HOOK not configured."]
          Cache.empty none := by
  decide

/-- C6 (amended).  When the broadcast transport is not configured, each
owner-actionable operation stops right after the debug log: the structured
log records are emitted, no broadcast happens, and the per-owner direct
messaging step is skipped as well (the method returns before
`message_owners`), leaving the cache unchanged and raising nothing. -/
theorem no_hook_early_return :
    (∀ (c : Cache) (now : Nat) (botToken : Option String) (asg : Asg)
        (n : Nat) (pods : List Pod) (bcast : BroadcastOutcome)
        (direct : String → DirectOutcome),
        notify_scale c now none botToken asg n pods bcast direct
          = NotifyResult.mk
              (struct_log "scale" pods
                [("asg", asg.strRepr), ("units_requested", toString n)]
                ++ [Output.debugLog "SLACK_HOOK not configured."]) c none)
    ∧ (∀ (c : Cache) (now : Nat) (botToken : Option String) (sel : String)
        (pods : List Pod) (bcast : BroadcastOutcome)
        (direct : String → DirectOutcome),
        notify_failed_to_scale c now none botToken sel pods bcast direct
          = NotifyResult.mk
              (struct_log "failed to scale" pods [("selectors_hash", sel)]
                ++ [Output.debugLog "SLACK_HOOK not configured."]) c none)
    ∧ (∀ (c : Cache) (now : Nat) (botToken : Option String) (pod : Pod)
        (rc : String) (bcast : BroadcastOutcome)
        (direct : String → DirectOutcome),
        notify_invalid_pod_capacity c now none botToken pod rc bcast direct
          = NotifyResult.mk
              (struct_log "invalid pod capacity" [pod]
                [("recommended_capacity", rc)]
                ++ [Output.debugLog "SLACK_HOOK not configured."]) c none) :=
  ⟨fun _ _ _ _ _ _ _ _ => rfl, fun _ _ _ _ _ _ _ => rfl,
   fun _ _ _ _ _ _ _ => rfl⟩

/-- C7.  Unit-list rendering of `_generate_pod_string`: more than 5 pods
render as the first 4 `namespace/name` entries joined by `, `, then
`, and K others` with K = total − 4; otherwise all entries are joined.  At
the boundary, 5 pods render all five names and 6 pods render four names
plus `, and 2 others`. -/
theorem pod_string_truncation :
    (∀ pods : List Pod, pods.length > 5 →
        _generate_pod_string pods
          = String.intercalate ", "
              ((pods.take 4).map (fun pod => pod.nspace ++ "/" ++ pod.name))
            ++ ", and " ++ toString (pods.length - 4) ++ " others")
    ∧ (∀ pods : List Pod, pods.length ≤ 5 →
        _generate_pod_string pods
          = String.intercalate ", "
              (pods.map (fun pod => pod.nspace ++ "/" ++ pod.name)))
    ∧ _generate_pod_string fivePods
        = "ns/pod1, ns/pod2, ns/pod3, ns/pod4, ns/pod5"
    ∧ _generate_pod_string sixPods
        = "ns/pod1, ns/pod2, ns/pod3, ns/pod4, and 2 others" := by
  refine ⟨?_, ?_, ?_, ?_⟩
  · intro pods h
    simp [_generate_pod_string, h]
  · intro pods h
    have h2 : ¬ pods.length > 5 := by omega
    simp [_generate_pod_string, h2]
  · decide
  · decide

/-- Witness for the C7 theorem at the 5- and 6-pod boundary inputs. -/
theorem pod_string_truncation_witness :
    _generate_pod_string sixPods
      = String.intercalate ", "
          ((sixPods.take 4).map (fun pod => pod.nspace ++ "/" ++ pod.name))
        ++ ", and " ++ toString (sixPods.length - 4) ++ " others"
    ∧ _generate_pod_string fivePods
      = String.intercalate ", "
          (fivePods.map (fun pod => pod.nspace ++ "/" ++ pod.name)) :=
  ⟨pod_string_truncation.1 sixPods (by decide),
   pod_string_truncation.2.1 fivePods (by decide)⟩

/-- C8.  A drain event performs only logging and the broadcast:
`notify_drained_node` never calls `message_owner`/`message_owners`, so
whatever the pods' owners, the configuration, and the broadcast outcome,
its output trace contains no direct-message transport call and the
fingerprint cache is returned unchanged. -/
theorem drain_no_direct_messaging (c : Cache) (now : Nat)
    (hook : Option String) (node : String) (pods : List Pod)
    (bcast : BroadcastOutcome) :
    (notify_drained_node c now hook node pods bcast).cache = c
    ∧ (notify_drained_node c now hook node pods bcast).outputs.all
        (fun o => !o.isDirectPost) = true := by
  cases hook <;> cases bcast <;>
    simp [notify_drained_node, broadcastStep, struct_log, Output.isDirectPost,
      List.all_eq_true]

/-- Groups produced by `addToGroup` keep the owner invariant: every pod in
a group has that group's owner. -/
theorem addToGroup_owner_ok (acc : List (String × List Pod)) (o : String)
    (pod : Pod)
    (hacc : ∀ g ∈ acc, ∀ p ∈ g.2, p.owner = some g.1)
    (hpod : pod.owner = some o) :
    ∀ g ∈ addToGroup acc o pod, ∀ p ∈ g.2, p.owner = some g.1 := by
  induction acc with
  | nil =>
    intro g hg p hp
    simp only [addToGroup, List.mem_singleton] at hg
    subst hg
    simp only [List.mem_singleton] at hp
    subst hp
    exact hpod
  | cons hd tl ih =>
    match hd with
    | (o', ps) =>
      by_cases ho : o' = o
      · intro g hg p hp
        rw [addToGroup, if_pos ho] at hg
        rcases List.mem_cons.mp hg with hg | hg
        · subst hg
          rcases List.mem_append.mp hp with hp | hp
          · exact hacc (o', ps) (by simp) p hp
          · rw [List.mem_singleton] at hp
            subst hp
            rw [hpod, ho]
        · exact hacc g (List.mem_cons_of_mem _ hg) p hp
      · intro g hg p hp
        rw [addToGroup, if_neg ho] at hg
        rcases List.mem_cons.mp hg with hg | hg
        · subst hg
          exact hacc (o', ps) (by simp) p hp
        · exact ih (fun g' hg' => hacc g' (List.mem_cons_of_mem _ hg'))
            g hg p hp

/-- The grouping fold keeps the owner invariant from any accumulator. -/
theorem groupFold_owner_ok (pods : List Pod) :
    ∀ acc : List (String × List Pod),
    (∀ g ∈ acc, ∀ p ∈ g.2, p.owner = some g.1) →
    ∀ g ∈ pods.foldl
        (fun acc pod =>
          match pod.owner with
          | none => acc
          | some o => addToGroup acc o pod) acc,
      ∀ p ∈ g.2, p.owner = some g.1 := by
  induction pods with
  | nil => intro acc hacc; exact hacc
  | cons pod pods ih =>
    intro acc hacc
    rw [List.foldl_cons]
    cases hpo : pod.owner with
    | none => exact ih acc hacc
    | some o => exact ih _ (addToGroup_owner_ok acc o pod hacc hpo)

/-- The grouping fold is the identity when every pod lacks an owner. -/
theorem groupFold_all_none (acc : List (String × List Pod)) :
    ∀ pods : List Pod, (∀ p ∈ pods, p.owner = none) →
    pods.foldl
        (fun acc pod =>
          match pod.owner with
          | none => acc
          | some o => addToGroup acc o pod) acc = acc
  | [], _ => rfl
  | pod :: pods, h => by
    rw [List.foldl_cons]
    have hpo : pod.owner = none := h pod (by simp)
    rw [hpo]
    exact groupFold_all_none acc pods
      (fun p hp => h p (List.mem_cons_of_mem pod hp))

/-- C9.  Owner grouping excludes ownerless units: every pod put in a group
by `message_owners` has that group's owner, so a pod with no owner never
reaches a direct-message batch; and when no pod has an owner the grouping
is empty, so no direct message is attempted and the cache is untouched,
whatever the configuration. -/
theorem owner_grouping_excludes_ownerless (pods : List Pod) :
    (∀ g ∈ groupByOwner pods, ∀ p ∈ g.2, p.owner = some g.1)
    ∧ ((∀ p ∈ pods, p.owner = none) →
        groupByOwner pods = []
        ∧ ∀ (c : Cache) (now : Nat) (botToken : Option String)
            (message : String) (direct : String → DirectOutcome),
            (message_owners c now botToken message pods direct).1.all
              (fun o => !o.isDirectPost) = true
            ∧ (message_owners c now botToken message pods direct).2 = c) := by
  constructor
  · exact groupFold_owner_ok pods [] (by simp)
  · intro hnone
    have hempty : groupByOwner pods = [] := groupFold_all_none [] pods hnone
    refine ⟨hempty, ?_⟩
    intro c now botToken message direct
    cases botToken with
    | none => exact ⟨rfl, rfl⟩
    | some tok =>
        constructor
        · rw [message_owners]
          rw [hempty]
          rfl
        · rw [message_owners]
          rw [hempty]
          rfl

/-- Witness for the C9 theorem on concrete pods: an owned pod carries its
group's owner, and an ownerless pod produces an empty grouping and an
unchanged cache. -/
theorem owner_grouping_excludes_ownerless_witness :
    podAlice.owner = some "alice"
    ∧ groupByOwner [podNoOwner] = []
    ∧ (message_owners Cache.empty 0 (some "tok") "m" [podNoOwner]
        (fun _ => .ok "r")).2 = Cache.empty :=
  ⟨(owner_grouping_excludes_ownerless [podAlice]).1 ("alice", [podAlice])
      (by decide) podAlice (by decide),
   ((owner_grouping_excludes_ownerless [podNoOwner]).2 (by decide)).1,
   (((owner_grouping_excludes_ownerless [podNoOwner]).2 (by decide)).2
      Cache.empty 0 (some "tok") "m" (fun _ => .ok "r")).2⟩

end Autoscaler
